import Mathlib

/-!
Verification development for the trapezoidal-map / planar point-location
program in `trapezoidal_map.py`.

The program builds a search DAG out of four Python classes — `BeginPoint`,
`EndPoint`, `Segment`, `Trapezoid` — connected by mutable attributes
(`left`, `right`, `above`, `below`, `parent`, ...).  We embed this object
graph shallowly: a `Heap` maps references (`Ref = Nat`) to `Obj` records
mirroring the classes' attributes, and every mutating Python function
becomes a Lean function threading the heap explicitly.  Python exceptions
(`ZeroDivisionError` from the slope computation, `AttributeError` from
attribute access on `None` or on an object of the wrong class) and fuel
exhaustion of the embedded recursions are surfaced as `Except PyErr`.

Numeric modelling: Python floats are idealized as exact rationals `ℚ`
throughout the structural embedding; a separate IEEE-754 double-precision
model (`fl`, `fdiv`, `fmul`, `fadd`, `fsub`) is used where the claims are
about the rounding behaviour of the arithmetic itself.

Object names (`"P3"`, `"Q3"`, `"S2"`, `"T7"`, and the literal `"S_"` built
at line 559 of the source) are modelled structurally as a tag together
with an optional numeral, `none` standing for the `"_"` suffix.
-/

namespace TrapMap

/-- Object references: indices into the heap. -/
abbrev Ref := Nat

/-- Name tags: `P`/`Q` for begin/end points, `S` for segments, `T` for trapezoids. -/
inductive Tag where
  | P | Q | S | T
deriving DecidableEq, Repr

/-- A Python name string such as `"P3"` or `"S_"`: tag plus optional numeral
(`none` is the `"_"` used for the throwaway segment at source line 559). -/
abbrev NameT := Tag × Option Nat

/-- Heap objects, mirroring the four Python classes.

* `pt` is a `BeginPoint` (`isBegin = true`) or `EndPoint` (`false`):
  attributes `parent`, `left`, `right`, `loc`, `name`, and the bullet-path
  fields `bullet_upper`/`bullet_lower` (class defaults 100 and 0).
* `seg` is a `Segment`: `parent`, `above`, `below`, endpoints `p`/`q`
  (references to point objects), `name`, slope `m`, intercept `b`.
* `trap` is a `Trapezoid`: `left_point`, `right_point` (point references or
  `None`), `above_segment`, `below_segment`, `parent`, and a name that is
  absent until `setName` is called. -/
inductive Obj where
  | pt (isBegin : Bool) (parent left right : Option Ref) (loc : ℚ × ℚ)
      (name : NameT) (bu bl : ℚ)
  | seg (parent above below : Option Ref) (sp sq : Ref) (name : NameT) (m b : ℚ)
  | trap (lp rp : Option Ref) (abv blw : Ref) (parent : Option Ref)
      (tname : Option NameT)
deriving DecidableEq, Repr

/-- The Python object heap: a partial map from references to objects plus the
next fresh reference. -/
structure Heap where
  objs : Ref → Option Obj
  fresh : Nat

/-- The empty heap. -/
def Heap.empty : Heap := ⟨fun _ => none, 0⟩

/-- Allocate a new object (Python object construction). -/
def alloc (h : Heap) (o : Obj) : Heap :=
  ⟨Function.update h.objs h.fresh (some o), h.fresh + 1⟩

/-- Overwrite the object stored at `r` (Python attribute mutation). -/
def setObj (h : Heap) (r : Ref) (o : Obj) : Heap :=
  ⟨Function.update h.objs r (some o), h.fresh⟩

/-- Errors of the embedded Python program: fuel exhaustion of the embedding,
`ZeroDivisionError` (source line 109), and `AttributeError` (attribute access
on `None` or on an object lacking the attribute). -/
inductive PyErr where
  | fuel | zdiv | attr
deriving DecidableEq, Repr

/-- Python `==` restricted to the `above_segment` / `below_segment` slots of
`Trapezoid.__eq__` (source lines 72-75): both slots always hold `Segment`
objects, whose `__eq__` (lines 170-183) compares names only. -/
def segNameEq (h : Heap) (a b : Ref) : Bool :=
  match h.objs a, h.objs b with
  | some (.seg _ _ _ _ _ n1 _ _), some (.seg _ _ _ _ _ n2 _ _) => decide (n1 = n2)
  | _, _ => decide (a = b)

/-- Python `==` on the `left_point` / `right_point` slots of
`Trapezoid.__eq__`: the slots hold `BeginPoint`/`EndPoint` objects (whose
default `__eq__` is identity) or `None`; `None == None` is `True`. -/
def optRefEq : Option Ref → Option Ref → Bool
  | none, none => true
  | some a, some b => decide (a = b)
  | _, _ => false

/-- Python `==` between two heap objects, following the classes' `__eq__`
methods: `Trapezoid` compares the four bounding attributes structurally
(lines 61-77), `Segment` compares names only (lines 170-183),
`BeginPoint`/`EndPoint` fall back to identity, and objects of different
classes are never equal. -/
def pyEq (h : Heap) (a b : Ref) : Bool :=
  match h.objs a, h.objs b with
  | some (.trap lp1 rp1 a1 b1 _ _), some (.trap lp2 rp2 a2 b2 _ _) =>
      optRefEq lp1 lp2 && optRefEq rp1 rp2 && segNameEq h a1 a2 && segNameEq h b1 b2
  | some (.seg _ _ _ _ _ n1 _ _), some (.seg _ _ _ _ _ n2 _ _) => decide (n1 = n2)
  | _, _ => decide (a = b)

/-- Python `==` where either side may be `None`. -/
def pyEqO (h : Heap) : Option Ref → Option Ref → Bool
  | none, none => true
  | some a, some b => pyEq h a b
  | _, _ => false

/-- Python `childSlot == oldChild` inside `replaceChild`: the slot may hold
`None` (never equal to an object). -/
def childEq (h : Heap) (slot : Option Ref) (old : Ref) : Bool :=
  match slot with
  | none => false
  | some c => pyEq h c old

/-- Read the `.loc` attribute; `AttributeError` unless the object is a point. -/
def locOf (h : Heap) (r : Ref) : Except PyErr (ℚ × ℚ) :=
  match h.objs r with
  | some (.pt _ _ _ _ l _ _ _) => .ok l
  | _ => .error .attr

/-- `Segment.getY` (source line 131): `m*x + b` from the stored slope and
intercept; `AttributeError` unless the object is a segment. -/
def getY (h : Heap) (sref : Ref) (x : ℚ) : Except PyErr ℚ :=
  match h.objs sref with
  | some (.seg _ _ _ _ _ _ m b) => .ok (m * x + b)
  | _ => .error .attr

/-- `Segment.__init__` (source lines 93-110): allocates a segment with slope
`(q.y - p.y) / (q.x - p.x)` — an unguarded division raising
`ZeroDivisionError` when the endpoints share an x-coordinate — and intercept
`p.y - p.x * m`. -/
def segInit (h : Heap) (spr sqr : Ref) (parent : Option Ref) (name : NameT) :
    Except PyErr (Ref × Heap) :=
  match h.objs spr, h.objs sqr with
  | some (.pt _ _ _ _ (px, py) _ _ _), some (.pt _ _ _ _ (qx, qy) _ _ _) =>
      if qx - px = 0 then .error .zdiv
      else
        let m := (qy - py) / (qx - px)
        let b := py - px * m
        .ok (h.fresh, alloc h (.seg parent none none spr sqr name m b))
  | _, _ => .error .attr

/-- `Segment.isAbove` (source lines 133-151): is `other` below this segment's
line (the method returns `True` when the segment's y at `other`'s x exceeds
`other`'s y).  Dispatches on the class of `other`; a `None` argument reaches
the trapezoid branch and raises `AttributeError`. -/
def isAbove (h : Heap) (sref : Ref) (other : Option Ref) : Except PyErr Bool :=
  match other with
  | none => .error .attr
  | some r =>
    match h.objs r with
    | some (.pt _ _ _ _ (ox, oy) _ _ _) => do
        let g ← getY h sref ox
        .ok (decide (oy < g))
    | some (.seg _ _ _ op oq _ _ _) => do
        let (opx, opy) ← locOf h op
        let g1 ← getY h sref opx
        if g1 = opy then do
          let (oqx, oqy) ← locOf h oq
          let g2 ← getY h sref oqx
          .ok (decide (oqy < g2))
        else .ok (decide (opy < g1))
    | some (.trap _ _ abv _ _ _) =>
        match h.objs abv with
        | some (.seg _ _ _ ap _ _ _ _) => do
            let (apx, apy) ← locOf h ap
            let g ← getY h sref apx
            .ok (decide (apy < g))
        | _ => .error .attr
    | none => .error .attr

/-- `Segment.isOn` (source lines 153-168): does `other` lie exactly on this
segment's line. -/
def isOn (h : Heap) (sref : Ref) (other : Option Ref) : Except PyErr Bool :=
  match other with
  | none => .error .attr
  | some r =>
    match h.objs r with
    | some (.pt _ _ _ _ (ox, oy) _ _ _) => do
        let g ← getY h sref ox
        .ok (decide (g = oy))
    | some (.seg _ _ _ op _ _ _ _) => do
        let (opx, opy) ← locOf h op
        let g1 ← getY h sref opx
        .ok (decide (g1 = opy))
    | some (.trap _ _ abv _ _ _) =>
        match h.objs abv with
        | some (.seg _ _ _ ap _ _ _ _) => do
            let (apx, apy) ← locOf h ap
            let g ← getY h sref apx
            .ok (decide (g = apy))
        | _ => .error .attr
    | none => .error .attr

/-- `replaceChild` (source lines 185-196, 238-249, 290-301): replace the first
child slot that compares `==` to `oldChild`.  `Trapezoid` has no such method,
so calling it on a trapezoid raises `AttributeError`. -/
def replaceChild (h : Heap) (self old new : Ref) : Except PyErr Heap :=
  match h.objs self with
  | some (.pt k par l r loc nm bu bl) =>
      if childEq h l old then .ok (setObj h self (.pt k par (some new) r loc nm bu bl))
      else if childEq h r old then .ok (setObj h self (.pt k par l (some new) loc nm bu bl))
      else .ok h
  | some (.seg par ab be sp sq nm m b) =>
      if childEq h ab old then .ok (setObj h self (.seg par (some new) be sp sq nm m b))
      else if childEq h be old then .ok (setObj h self (.seg par ab (some new) sp sq nm m b))
      else .ok h
  | _ => .error .attr

/-- `locate_point` (source lines 919-951).  At a point node: exact x-match
with exact y-match returns the point node itself; exact x-match otherwise
goes left; `x <` goes left, else right.  At a segment node: `y ≥ getY(x)`
goes above, else below.  At a trapezoid leaf: return it.  A `None` node or
exhausted fuel yields `none` (the Python function prints an error and
returns `None`). -/
def locate_point : Nat → Heap → ℚ × ℚ → Option Ref → Option Ref
  | 0, _, _, _ => none
  | _ + 1, _, _, none => none
  | fuel + 1, h, pt, some r =>
    match h.objs r with
    | some (.pt _ _ l rt (x, y) _ _ _) =>
        if pt.1 = x then
          if pt.2 = y then some r
          else locate_point fuel h pt l
        else if pt.1 < x then locate_point fuel h pt l
        else locate_point fuel h pt rt
    | some (.seg _ ab be _ _ _ m b) =>
        if m * pt.1 + b ≤ pt.2 then locate_point fuel h pt ab
        else locate_point fuel h pt be
    | some (.trap _ _ _ _ _ _) => some r
    | none => none

end TrapMap

namespace TrapMap

/-! ## Exact-rational and IEEE-double models of the geometry predicates

`Segment.__init__` stores `m = (q.y - p.y)/(q.x - p.x)` and
`b = p.y - p.x*m` as Python floats; `getY`, `isAbove` and `isOn` compare
`m*x + b` against the query's y.  `ratGetY`/`ratIsAbove`/`ratIsOn` are the
idealized exact-rational readings of those source lines; `flGetY` etc. model
the same lines under IEEE-754 double-precision rounding. -/

/-- Exact-rational slope of the segment from `P` to `Q` (source line 109). -/
def ratSlope (P Q : ℚ × ℚ) : ℚ := (Q.2 - P.2) / (Q.1 - P.1)

/-- Exact-rational intercept (source line 110). -/
def ratIcept (P Q : ℚ × ℚ) : ℚ := P.2 - P.1 * ratSlope P Q

/-- Exact-rational `getY` (source line 131). -/
def ratGetY (P Q : ℚ × ℚ) (x : ℚ) : ℚ := ratSlope P Q * x + ratIcept P Q

/-- Exact-rational `isAbove` on a point argument (source line 144):
`True` when the segment's line passes above the point. -/
def ratIsAbove (P Q pt : ℚ × ℚ) : Bool := decide (pt.2 < ratGetY P Q pt.1)

/-- Exact-rational `isOn` on a point argument (source line 164). -/
def ratIsOn (P Q pt : ℚ × ℚ) : Bool := decide (ratGetY P Q pt.1 = pt.2)

/-- The orientation determinant `(Q.x−P.x)(pt.y−P.y) − (Q.y−P.y)(pt.x−P.x)`
named by the specification. -/
def orientDet (P Q pt : ℚ × ℚ) : ℚ :=
  (Q.1 - P.1) * (pt.2 - P.2) - (Q.2 - P.2) * (pt.1 - P.1)

/-- The power `2 ^ e` over ℚ for an integer exponent, computed through
`Nat.pow`. -/
def pow2 (e : ℤ) : ℚ :=
  if 0 ≤ e then ((2 ^ e.toNat : ℕ) : ℚ) else 1 / ((2 ^ (-e).toNat : ℕ) : ℚ)

/-- Fuel-based binary logarithm (structural recursion on the fuel). -/
def natLog2Aux : ℕ → ℕ → ℕ
  | 0, _ => 0
  | fuel + 1, n => if n < 2 then 0 else natLog2Aux fuel (n / 2) + 1

/-- `⌊log2 n⌋` for `n ≥ 1` (and 0 for `n = 0`). -/
def natLog2 (n : ℕ) : ℕ := natLog2Aux n n

/-- Round a positive rational `a/b` to the nearest IEEE-754 double (53-bit
significand, round-to-nearest, ties to even), computed on the numerator and
denominator with natural-number arithmetic: `e` is `⌊log2 (a/b)⌋`, the
scaled significand `a·2^(52−e) / b` is split into quotient and remainder,
and the quotient is rounded.  Overflow and subnormals are outside the range
of interest and not modelled. -/
def flPos (q : ℚ) : ℚ :=
  let a : ℕ := q.num.toNat
  let b : ℕ := q.den
  let e0 : ℤ := (natLog2 a : ℤ) - (natLog2 b : ℤ)
  let e : ℤ := if a * 2 ^ (-e0).toNat < b * 2 ^ e0.toNat then e0 - 1 else e0
  let A : ℕ := a * 2 ^ ((52 : ℤ) - e).toNat
  let B : ℕ := b * 2 ^ (e - 52).toNat
  let n0 : ℕ := A / B
  let r : ℕ := A % B
  let n : ℕ :=
    if B < 2 * r then n0 + 1
    else if 2 * r < B then n0
    else if n0 % 2 = 0 then n0 else n0 + 1
  (n : ℚ) * pow2 (e - 52)

/-- Round any rational to the nearest IEEE-754 double. -/
def fl (q : ℚ) : ℚ := if q = 0 then 0 else if 0 < q then flPos q else -flPos (-q)

/-- Double-precision division. -/
def fdiv (x y : ℚ) : ℚ := fl (x / y)

/-- Double-precision multiplication. -/
def fmul (x y : ℚ) : ℚ := fl (x * y)

/-- Double-precision addition. -/
def fadd (x y : ℚ) : ℚ := fl (x + y)

/-- Double-precision subtraction. -/
def fsub (x y : ℚ) : ℚ := fl (x - y)

/-- `self.m` as the program computes it in floats (source line 109). -/
def flSlope (P Q : ℚ × ℚ) : ℚ := fdiv (Q.2 - P.2) (Q.1 - P.1)

/-- `self.b` as the program computes it in floats (source line 110). -/
def flIcept (P Q : ℚ × ℚ) : ℚ := fsub P.2 (fmul P.1 (flSlope P Q))

/-- `getY` as the program computes it in floats (source line 131). -/
def flGetY (P Q : ℚ × ℚ) (x : ℚ) : ℚ := fadd (fmul (flSlope P Q) x) (flIcept P Q)

/-- `isAbove` on a point argument under float arithmetic (source line 144). -/
def flIsAbove (P Q pt : ℚ × ℚ) : Bool := decide (pt.2 < flGetY P Q pt.1)

/-- `isOn` on a point argument under float arithmetic (source line 164). -/
def flIsOn (P Q pt : ℚ × ℚ) : Bool := decide (flGetY P Q pt.1 = pt.2)

end TrapMap

namespace TrapMap

/-! ## The insertion engine (`construct_trapezoidal_map` and its helpers) -/

/-- Dereference an optional reference; `AttributeError` on `None` (attribute
access on Python `None`). -/
def getSome : Option Ref → Except PyErr Ref
  | some r => .ok r
  | none => .error .attr

/-- Read the `.parent` attribute (present on all four classes). -/
def parentOf (h : Heap) (r : Ref) : Except PyErr (Option Ref) :=
  match h.objs r with
  | some (.pt _ par _ _ _ _ _ _) => .ok par
  | some (.seg par _ _ _ _ _ _ _) => .ok par
  | some (.trap _ _ _ _ par _) => .ok par
  | none => .error .attr

/-- Read the four bounding attributes and parent of a `Trapezoid`;
`AttributeError` otherwise. -/
def trapFields (h : Heap) (r : Ref) :
    Except PyErr (Option Ref × Option Ref × Ref × Ref × Option Ref) :=
  match h.objs r with
  | some (.trap lp rp ab be par _) => .ok (lp, rp, ab, be, par)
  | _ => .error .attr

/-- Read the endpoint references of a `Segment`. -/
def segPQ (h : Heap) (r : Ref) : Except PyErr (Ref × Ref) :=
  match h.objs r with
  | some (.seg _ _ _ sp sq _ _ _) => .ok (sp, sq)
  | _ => .error .attr

/-- Set the `.left` attribute of a point node. -/
def setPtLeft (h : Heap) (r : Ref) (v : Option Ref) : Except PyErr Heap :=
  match h.objs r with
  | some (.pt k par _ rt loc nm bu bl) => .ok (setObj h r (.pt k par v rt loc nm bu bl))
  | _ => .error .attr

/-- Set the `.right` attribute of a point node. -/
def setPtRight (h : Heap) (r : Ref) (v : Option Ref) : Except PyErr Heap :=
  match h.objs r with
  | some (.pt k par l _ loc nm bu bl) => .ok (setObj h r (.pt k par l v loc nm bu bl))
  | _ => .error .attr

/-- Set the `.above` attribute of a segment node. -/
def setSegAbove (h : Heap) (r : Ref) (v : Option Ref) : Except PyErr Heap :=
  match h.objs r with
  | some (.seg par _ be sp sq nm m b) => .ok (setObj h r (.seg par v be sp sq nm m b))
  | _ => .error .attr

/-- Set the `.below` attribute of a segment node. -/
def setSegBelow (h : Heap) (r : Ref) (v : Option Ref) : Except PyErr Heap :=
  match h.objs r with
  | some (.seg par ab _ sp sq nm m b) => .ok (setObj h r (.seg par ab v sp sq nm m b))
  | _ => .error .attr

/-- Set the `.bullet_upper` attribute of a point. -/
def setBulletUpper (h : Heap) (r : Ref) (v : ℚ) : Except PyErr Heap :=
  match h.objs r with
  | some (.pt k par l rt loc nm _ bl) => .ok (setObj h r (.pt k par l rt loc nm v bl))
  | _ => .error .attr

/-- Set the `.bullet_lower` attribute of a point. -/
def setBulletLower (h : Heap) (r : Ref) (v : ℚ) : Except PyErr Heap :=
  match h.objs r with
  | some (.pt k par l rt loc nm bu _) => .ok (setObj h r (.pt k par l rt loc nm bu v))
  | _ => .error .attr

/-- `Trapezoid.setName` (source lines 40-47). -/
def setTName (h : Heap) (r : Ref) (nm : NameT) : Except PyErr Heap :=
  match h.objs r with
  | some (.trap lp rp ab be par _) => .ok (setObj h r (.trap lp rp ab be par (some nm)))
  | _ => .error .attr

/-- One comparison step of `rightMostPoint` (source lines 638-647): replace
`best` by `cand` when `best` is `None`, or when `cand` is present and lies
strictly further right. -/
def rmpStep (h : Heap) (best cand : Option Ref) : Except PyErr (Option Ref) :=
  match best, cand with
  | none, _ => .ok cand
  | some b, none => .ok (some b)
  | some b, some c => do
      let (bx, _) ← locOf h b
      let (cx, _) ← locOf h c
      if bx < cx then .ok (some c) else .ok (some b)

/-- `rightMostPoint(left, right, cur)` (source lines 638-647). -/
def rightMostPoint (h : Heap) (l r cur : Option Ref) : Except PyErr (Option Ref) := do
  let b1 ← rmpStep h l r
  rmpStep h b1 cur

/-- One comparison step of `leftMostPoint` (source lines 713-723). -/
def lmpStep (h : Heap) (best cand : Option Ref) : Except PyErr (Option Ref) :=
  match best, cand with
  | none, _ => .ok cand
  | some b, none => .ok (some b)
  | some b, some c => do
      let (bx, _) ← locOf h b
      let (cx, _) ← locOf h c
      if cx < bx then .ok (some c) else .ok (some b)

/-- `leftMostPoint(left, right, cur)` (source lines 713-723). -/
def leftMostPoint (h : Heap) (l r cur : Option Ref) : Except PyErr (Option Ref) := do
  let b1 ← lmpStep h l r
  lmpStep h b1 cur

/-- `findLeftPointAbove` (source lines 574-603). -/
def findLeftPointAbove : Nat → Heap → Option Ref → Ref → Except PyErr (Option Ref)
  | 0, _, _, _ => .error .fuel
  | fuel + 1, h, cur, sref =>
    match cur with
    | none => .ok none
    | some c =>
      match h.objs c with
      | some (.pt _ _ cl cr (cx, _) _ _ _) => do
          let (spRef, sqRef) ← segPQ h sref
          let (sqx, _) ← locOf h sqRef
          if sqx < cx then findLeftPointAbove fuel h cl sref
          else if pyEq h c sqRef then .ok none
          else if pyEq h c spRef then .ok (some spRef)
          else do
            let r ← findLeftPointAbove fuel h cr sref
            let l ← findLeftPointAbove fuel h cl sref
            let ab ← isAbove h sref (some c)
            if !ab then rightMostPoint h l r (some c)
            else rightMostPoint h l r none
      | some (.seg _ sab sbe _ _ _ _ _) => do
          let abv ← isAbove h c (some sref)
          if abv then findLeftPointAbove fuel h sbe sref
          else findLeftPointAbove fuel h sab sref
      | _ => .ok none

/-- `findLeftPointBelow` (source lines 606-635). -/
def findLeftPointBelow : Nat → Heap → Option Ref → Ref → Except PyErr (Option Ref)
  | 0, _, _, _ => .error .fuel
  | fuel + 1, h, cur, sref =>
    match cur with
    | none => .ok none
    | some c =>
      match h.objs c with
      | some (.pt _ _ cl cr (cx, _) _ _ _) => do
          let (spRef, sqRef) ← segPQ h sref
          let (sqx, _) ← locOf h sqRef
          if sqx < cx then findLeftPointBelow fuel h cl sref
          else if pyEq h c sqRef then .ok none
          else if pyEq h c spRef then .ok (some spRef)
          else do
            let r ← findLeftPointBelow fuel h cr sref
            let l ← findLeftPointBelow fuel h cl sref
            let ab ← isAbove h sref (some c)
            if ab then rightMostPoint h l r (some c)
            else rightMostPoint h l r none
      | some (.seg _ sab sbe _ _ _ _ _) => do
          let abv ← isAbove h c (some sref)
          if abv then findLeftPointBelow fuel h sbe sref
          else findLeftPointBelow fuel h sab sref
      | _ => .ok none

/-- `findRightPointAbove` (source lines 650-679). -/
def findRightPointAbove : Nat → Heap → Option Ref → Ref → Except PyErr (Option Ref)
  | 0, _, _, _ => .error .fuel
  | fuel + 1, h, cur, sref =>
    match cur with
    | none => .ok none
    | some c =>
      match h.objs c with
      | some (.pt _ _ cl cr (cx, _) _ _ _) => do
          let (spRef, sqRef) ← segPQ h sref
          let (spx, _) ← locOf h spRef
          if cx < spx then findRightPointAbove fuel h cr sref
          else if pyEq h c sqRef then .ok (some sqRef)
          else if pyEq h c spRef then .ok none
          else do
            let r ← findRightPointAbove fuel h cr sref
            let l ← findRightPointAbove fuel h cl sref
            let ab ← isAbove h sref (some c)
            if !ab then leftMostPoint h l r (some c)
            else leftMostPoint h l r none
      | some (.seg _ sab sbe _ _ _ _ _) => do
          let abv ← isAbove h c (some sref)
          if abv then findRightPointAbove fuel h sbe sref
          else findRightPointAbove fuel h sab sref
      | _ => .ok none

/-- `findRightPointBelow` (source lines 682-710). -/
def findRightPointBelow : Nat → Heap → Option Ref → Ref → Except PyErr (Option Ref)
  | 0, _, _, _ => .error .fuel
  | fuel + 1, h, cur, sref =>
    match cur with
    | none => .ok none
    | some c =>
      match h.objs c with
      | some (.pt _ _ cl cr (cx, _) _ _ _) => do
          let (spRef, sqRef) ← segPQ h sref
          let (spx, _) ← locOf h spRef
          if cx < spx then findRightPointBelow fuel h cr sref
          else if pyEq h c sqRef then .ok (some sqRef)
          else if pyEq h c spRef then .ok none
          else do
            let r ← findRightPointBelow fuel h cr sref
            let l ← findRightPointBelow fuel h cl sref
            let ab ← isAbove h sref (some c)
            if ab then leftMostPoint h l r (some c)
            else leftMostPoint h l r none
      | some (.seg _ sab sbe _ _ _ _ _) => do
          let abv ← isAbove h c (some sref)
          if abv then findRightPointBelow fuel h sbe sref
          else findRightPointBelow fuel h sab sref
      | _ => .ok none

/-- `blockBullets` (source lines 500-571): walk the subtree between the new
endpoints, replacing every trapezoid leaf reached by a fresh segment node
named `S<seg_name>` with two fresh trapezoids, shrinking the running
`high_trap`/`low_trap` at segment nodes, and splitting them at point nodes
(where a throwaway segment named `S_` is built, source line 559). -/
def blockBullets : Nat → Heap → Option Ref → Ref → Ref → Ref → Ref → Nat →
    Bool → Bool → Except PyErr Heap
  | 0, _, _, _, _, _, _, _, _, _ => .error .fuel
  | fuel + 1, h, tree, lpt, rpt, highT, lowT, segName, hld, hrd =>
    match tree with
    | none => .error .attr
    | some t =>
      match h.objs t with
      | some (.trap tlp trp _ _ tpar _) => do
          let (sref, h1) ← segInit h lpt rpt tpar (Tag.S, some segName)
          let (hiLp, hiRp, hiAb, _, _) ← trapFields h1 highT
          let (loLp, loRp, _, loBe, _) ← trapFields h1 lowT
          let abL ← isAbove h1 sref tlp
          let tlpr ← getSome tlp
          let (tlx, _) ← locOf h1 tlpr
          let onL ← isOn h1 sref tlp
          let gL ← getY h1 sref tlx
          let (aboveLeft, belowLeft, h2) ←
            if abL then
              if onL then pure (hiLp, tlp, h1)
              else do
                let h' ← setBulletUpper h1 tlpr gL
                pure (hiLp, tlp, h')
            else
              if onL then pure (tlp, loLp, h1)
              else do
                let h' ← setBulletLower h1 tlpr gL
                pure (tlp, loLp, h')
          let abR ← isAbove h2 sref trp
          let trpr ← getSome trp
          let (trx, _) ← locOf h2 trpr
          let onR ← isOn h2 sref trp
          let gR ← getY h2 sref trx
          let (aboveRight, belowRight, h3) ←
            if abR then
              if onR then pure (hiRp, trp, h2)
              else do
                let h' ← setBulletUpper h2 trpr gR
                pure (hiRp, trp, h')
            else
              if onR then pure (trp, loRp, h2)
              else do
                let h' ← setBulletLower h2 trpr gR
                pure (trp, loRp, h')
          let aRef := h3.fresh
          let h4 := alloc h3 (.trap aboveLeft aboveRight hiAb sref (some sref) none)
          let h5 ← setSegAbove h4 sref (some aRef)
          let bRef := h5.fresh
          let h6 := alloc h5 (.trap belowLeft belowRight sref loBe (some sref) none)
          let h7 ← setSegBelow h6 sref (some bRef)
          let tparr ← getSome tpar
          replaceChild h7 tparr t sref
      | some (.seg _ sab sbe ssp ssq _ _ _) => do
          let abv ← isAbove h t (some lpt)
          if abv then do
            let (hiLp, hiRp, _, hiBe, _) ← trapFields h highT
            let rm ← rightMostPoint h hiLp (some ssp) none
            let lm ← leftMostPoint h hiRp (some ssq) none
            let shRef := h.fresh
            let h1 := alloc h (.trap rm lm t hiBe none none)
            blockBullets fuel h1 sbe lpt rpt shRef lowT segName hld hrd
          else do
            let (loLp, loRp, loAb, _, _) ← trapFields h lowT
            let rm ← rightMostPoint h loLp (some ssp) none
            let lm ← leftMostPoint h loRp (some ssq) none
            let slRef := h.fresh
            let h1 := alloc h (.trap rm lm loAb t none none)
            blockBullets fuel h1 sab lpt rpt highT slRef segName hld hrd
      | some (.pt _ _ cl cr (cx, _) _ _ _) => do
          if (!hld && pyEq h t lpt) || (!hrd && pyEq h t rpt) then pure h
          else do
            let (lx, _) ← locOf h lpt
            let (rx, _) ← locOf h rpt
            if cx ≤ lx then blockBullets fuel h cr lpt rpt highT lowT segName hld hrd
            else if rx ≤ cx then blockBullets fuel h cl lpt rpt highT lowT segName hld hrd
            else do
              let (sref, h1) ← segInit h lpt rpt none (Tag.S, none)
              let ab ← isAbove h1 sref (some t)
              if ab then do
                let (loLp, loRp, _, loBe, _) ← trapFields h1 lowT
                let llRef := h1.fresh
                let h2 := alloc h1 (.trap loLp (some t) sref loBe (some sref) none)
                let lrRef := h2.fresh
                let h3 := alloc h2 (.trap (some t) loRp sref loBe (some sref) none)
                let h4 ← blockBullets fuel h3 cl lpt rpt highT llRef segName hld hrd
                blockBullets fuel h4 cr lpt rpt highT lrRef segName hld hrd
              else do
                let (hiLp, hiRp, hiAb, _, _) ← trapFields h1 highT
                let hlRef := h1.fresh
                let h2 := alloc h1 (.trap hiLp (some t) hiAb sref (some sref) none)
                let hrRef := h2.fresh
                let h3 := alloc h2 (.trap (some t) hiRp hiAb sref (some sref) none)
                let h4 ← blockBullets fuel h3 cl lpt rpt hlRef lowT segName hld hrd
                blockBullets fuel h4 cr lpt rpt hrRef lowT segName hld hrd
      | none => .error .attr

/-- An input line: left endpoint then right endpoint. -/
abbrev Line := (ℚ × ℚ) × (ℚ × ℚ)

/-- Bounding box: lower-left then upper-right corner. -/
abbrev BBox := (ℚ × ℚ) × (ℚ × ℚ)

/-- CASE 2 of `construct_trapezoidal_map` (source lines 343-371): both
endpoints located to `==`-equal trapezoids.  Allocates `p`, `q`, `s` and the
four trapezoids `A` (p.left), `D` (q.right), `B` (s.above), `C` (s.below),
and splices `p` in place of `t_p` (new root when `t_p.parent` is `None`).
Returns the (possibly new) root together with `p` and `q`. -/
def case2 (h : Heap) (root : Ref) (tp tq : Option Ref) (line : Line) (np ns : Nat) :
    Except PyErr (Ref × Ref × Ref × Heap) :=
  match tp, tq with
  | some tpr, some tqr =>
    match h.objs tpr with
    | some (.trap tlp _ tab tbe tpar _) => do
        let pRef := h.fresh
        let h1 := alloc h (.pt true tpar none none line.1 (Tag.P, some np) 100 0)
        let qRef := h1.fresh
        let h2 := alloc h1 (.pt false (some pRef) none none line.2 (Tag.Q, some np) 100 0)
        let (sRef, h3) ← segInit h2 pRef qRef (some qRef) (Tag.S, some ns)
        let aRef := h3.fresh
        let h4 := alloc h3 (.trap tlp (some pRef) tab tbe (some pRef) none)
        let h5 ← setPtLeft h4 pRef (some aRef)
        let (_, tqrp, _, _, _) ← trapFields h5 tqr
        let dRef := h5.fresh
        let h6 := alloc h5 (.trap (some qRef) tqrp tab tbe (some qRef) none)
        let h7 ← setPtRight h6 qRef (some dRef)
        let h8 ← setPtLeft h7 qRef (some sRef)
        let h9 ← setPtRight h8 pRef (some qRef)
        let bRef := h9.fresh
        let h10 := alloc h9 (.trap (some pRef) (some qRef) tab sRef (some sRef) none)
        let h11 ← setSegAbove h10 sRef (some bRef)
        let cRef := h11.fresh
        let h12 := alloc h11 (.trap (some pRef) (some qRef) sRef tbe (some sRef) none)
        let h13 ← setSegBelow h12 sRef (some cRef)
        match tpar with
        | none => .ok (pRef, pRef, qRef, h13)
        | some prr => do
            let h14 ← replaceChild h13 prr tpr pRef
            .ok (root, pRef, qRef, h14)
    | _ => .error .attr
  | _, _ => .error .attr

/-- CASE 1 / CASE 3 of `construct_trapezoidal_map` (source lines 372-461):
the endpoints located to different nodes.  Handles duplicate endpoints
(reusing the located point node), the normal per-endpoint splits (with the
four-way dispatch on the located trapezoid's parent), and finally
`blockBullets` over the whole tree.  Returns `p`, `q`, the duplicate flags,
and the mutated heap. -/
def case13 (fuel : Nat) (h : Heap) (root : Ref) (tp tq : Option Ref) (line : Line)
    (np ns : Nat) (bbTop bbBot : Ref) : Except PyErr (Ref × Ref × Bool × Bool × Heap) := do
  let dupP := match tp with
    | some r => (match h.objs r with | some (.pt _ _ _ _ _ _ _ _) => true | _ => false)
    | none => false
  let dupQ := match tq with
    | some r => (match h.objs r with | some (.pt _ _ _ _ _ _ _ _) => true | _ => false)
    | none => false
  let (pRef, h1) ←
    if dupP then do
      let r ← getSome tp
      pure (r, h)
    else
      match tp with
      | none => .error .attr
      | some tpr => do
          let tpar ← parentOf h tpr
          let pR := h.fresh
          let h' := alloc h (.pt true tpar none none line.1 (Tag.P, some np) 100 0)
          let tparr ← getSome tpar
          let h'' ← replaceChild h' tparr tpr pR
          pure (pR, h'')
  let (qRef, h2) ←
    if dupQ then do
      let r ← getSome tq
      pure (r, h1)
    else
      match tq with
      | none => .error .attr
      | some tqr => do
          let tqpar ← parentOf h1 tqr
          let qR := h1.fresh
          let h' := alloc h1 (.pt false tqpar none none line.2 (Tag.Q, some np) 100 0)
          let tqparr ← getSome tqpar
          let h'' ← replaceChild h' tqparr tqr qR
          pure (qR, h'')
  let h3 ←
    if dupP then pure h2
    else do
      let tpr ← getSome tp
      let (sRef, ha) ← segInit h2 pRef qRef (some pRef) (Tag.S, some ns)
      let hb ← setPtRight ha pRef (some sRef)
      let (tlp, trp, tab, tbe, tpar) ← trapFields hb tpr
      let aRef := hb.fresh
      let hc := alloc hb (.trap tlp (some pRef) tab tbe (some pRef) none)
      let hd ← setPtLeft hc pRef (some aRef)
      match tpar with
      | none => pure hd
      | some parr =>
        match hd.objs parr with
        | some (.pt true _ _ _ (ppx, ppy) _ _ _) => do
            let g ← getY hd sRef ppx
            if g ≤ ppy then do
              let uRef := hd.fresh
              let he := alloc hd (.trap (some pRef) trp tab sRef (some sRef) none)
              let hf ← setSegAbove he sRef (some uRef)
              let trpr ← getSome trp
              let (tx, _) ← locOf hf trpr
              let g2 ← getY hf sRef tx
              let hg ← setBulletLower hf trpr g2
              let fr ← findRightPointBelow fuel hg (some root) sRef
              let vRef := hg.fresh
              let hh := alloc hg (.trap (some pRef) fr sRef tbe (some sRef) none)
              setSegBelow hh sRef (some vRef)
            else do
              let fr ← findRightPointAbove fuel hd (some root) sRef
              let uRef := hd.fresh
              let he := alloc hd (.trap (some pRef) fr tab sRef (some sRef) none)
              let hf ← setSegAbove he sRef (some uRef)
              let vRef := hf.fresh
              let hg := alloc hf (.trap (some pRef) trp sRef tbe (some sRef) none)
              let hh ← setSegBelow hg sRef (some vRef)
              let trpr ← getSome trp
              let (tx, _) ← locOf hh trpr
              let g2 ← getY hh sRef tx
              setBulletUpper hh trpr g2
        | some (.seg _ _ _ _ _ _ pm pb) => do
            let gp := pm * line.1.1 + pb
            if gp ≤ line.1.2 then do
              let fr ← findRightPointAbove fuel hd (some root) sRef
              let uRef := hd.fresh
              let he := alloc hd (.trap (some pRef) fr tab sRef (some sRef) none)
              let hf ← setSegAbove he sRef (some uRef)
              let vRef := hf.fresh
              let hg := alloc hf (.trap (some pRef) trp sRef tbe (some sRef) none)
              let hh ← setSegBelow hg sRef (some vRef)
              let trpr ← getSome trp
              let (tx, _) ← locOf hh trpr
              let g2 ← getY hh sRef tx
              setBulletUpper hh trpr g2
            else do
              let uRef := hd.fresh
              let he := alloc hd (.trap (some pRef) trp tab sRef (some sRef) none)
              let hf ← setSegAbove he sRef (some uRef)
              let trpr ← getSome trp
              let (tx, _) ← locOf hf trpr
              let g2 ← getY hf sRef tx
              let hg ← setBulletLower hf trpr g2
              let fr ← findRightPointBelow fuel hg (some root) sRef
              let vRef := hg.fresh
              let hh := alloc hg (.trap (some pRef) fr sRef tbe (some sRef) none)
              setSegBelow hh sRef (some vRef)
        | _ => pure hd
  let h4 ←
    if dupQ then pure h3
    else do
      let tqr ← getSome tq
      let (sRef, ha) ← segInit h3 pRef qRef (some qRef) (Tag.S, some ns)
      let hb ← setPtLeft ha qRef (some sRef)
      let (tqlp, tqrp, tqab, tqbe, tqpar) ← trapFields hb tqr
      let dRef := hb.fresh
      let hc := alloc hb (.trap (some qRef) tqrp tqab tqbe (some qRef) none)
      let hd ← setPtRight hc qRef (some dRef)
      match tqpar with
      | none => pure hd
      | some parr =>
        match hd.objs parr with
        | some (.pt false _ _ _ (ppx, ppy) _ _ _) => do
            let g ← getY hd sRef ppx
            if g ≤ ppy then do
              let uRef := hd.fresh
              let he := alloc hd (.trap tqlp (some qRef) tqab sRef (some sRef) none)
              let hf ← setSegAbove he sRef (some uRef)
              let tqlpr ← getSome tqlp
              let (tx, _) ← locOf hf tqlpr
              let g2 ← getY hf sRef tx
              let hg ← setBulletLower hf tqlpr g2
              let fl' ← findLeftPointBelow fuel hg (some root) sRef
              let vRef := hg.fresh
              let hh := alloc hg (.trap fl' (some qRef) sRef tqbe (some sRef) none)
              setSegBelow hh sRef (some vRef)
            else do
              let fl' ← findLeftPointAbove fuel hd (some root) sRef
              let uRef := hd.fresh
              let he := alloc hd (.trap fl' (some qRef) tqab sRef (some sRef) none)
              let hf ← setSegAbove he sRef (some uRef)
              let vRef := hf.fresh
              let hg := alloc hf (.trap tqlp (some qRef) sRef tqbe (some sRef) none)
              let hh ← setSegBelow hg sRef (some vRef)
              let tqlpr ← getSome tqlp
              let (tx, _) ← locOf hh tqlpr
              let g2 ← getY hh sRef tx
              setBulletUpper hh tqlpr g2
        | some (.seg _ _ _ _ _ _ pm pb) => do
            let gp := pm * line.1.1 + pb
            if gp ≤ line.1.2 then do
              let fl' ← findLeftPointAbove fuel hd (some root) sRef
              let uRef := hd.fresh
              let he := alloc hd (.trap fl' (some qRef) tqab sRef (some sRef) none)
              let hf ← setSegAbove he sRef (some uRef)
              let vRef := hf.fresh
              let hg := alloc hf (.trap tqlp (some qRef) sRef tqbe (some sRef) none)
              let hh ← setSegBelow hg sRef (some vRef)
              let tqlpr ← getSome tqlp
              let (tx, _) ← locOf hh tqlpr
              let g2 ← getY hh sRef tx
              setBulletUpper hh tqlpr g2
            else do
              let uRef := hd.fresh
              let he := alloc hd (.trap tqlp (some qRef) tqab sRef (some sRef) none)
              let hf ← setSegAbove he sRef (some uRef)
              let fl' ← findLeftPointBelow fuel hf (some root) sRef
              let vRef := hf.fresh
              let hg := alloc hf (.trap fl' (some qRef) sRef tqbe (some sRef) none)
              let hh ← setSegBelow hg sRef (some vRef)
              let tqlpr ← getSome tqlp
              let (tx, _) ← locOf hh tqlpr
              let g2 ← getY hh sRef tx
              setBulletLower hh tqlpr g2
        | _ => pure hd
  let (hs1, h5) ← segInit h4 pRef qRef none (Tag.S, some ns)
  let hiRef := h5.fresh
  let h6 := alloc h5 (.trap (some pRef) (some qRef) bbTop hs1 none none)
  let (hs2, h7) ← segInit h6 pRef qRef none (Tag.S, some ns)
  let loRef := h7.fresh
  let h8 := alloc h7 (.trap (some pRef) (some qRef) hs2 bbBot none none)
  let h9 ← blockBullets fuel h8 (some root) pRef qRef hiRef loRef ns dupP dupQ
  .ok (pRef, qRef, dupP, dupQ, h9)

/-- The bullet-path updates closing each loop iteration (source lines
464-470), guarded by the duplicate flags. -/
def bulletFinish (h : Heap) (dupP dupQ : Bool) (tp tq : Option Ref)
    (pRef qRef : Ref) (line : Line) : Except PyErr Heap := do
  let h1 ←
    if dupP then pure h
    else do
      let tpr ← getSome tp
      let (_, _, tab, tbe, _) ← trapFields h tpr
      let gU ← getY h tab line.1.1
      let h' ← setBulletUpper h pRef gU
      let gL ← getY h' tbe line.1.1
      setBulletLower h' pRef gL
  if dupQ then pure h1
  else do
    let tqr ← getSome tq
    let (_, _, tab, tbe, _) ← trapFields h1 tqr
    let gU ← getY h1 tab line.2.1
    let h' ← setBulletUpper h1 qRef gU
    let gL ← getY h' tbe line.2.1
    setBulletLower h' qRef gL

/-- One iteration of the insertion loop (source lines 330-470): locate both
endpoints, branch on `t_p == t_q`, and run the closing bullet updates.  The
duplicate flags are loop-carried state in the source (initialized at lines
316-317, reassigned only inside the `else` branch at lines 373-374), so the
CASE 2 branch leaves them unchanged. -/
def insertLine (fuel : Nat) (h : Heap) (root : Ref) (dupP dupQ : Bool)
    (line : Line) (np ns : Nat) (bbTop bbBot : Ref) :
    Except PyErr (Ref × Bool × Bool × Heap) := do
  let tp := locate_point fuel h line.1 (some root)
  let tq := locate_point fuel h line.2 (some root)
  if pyEqO h tp tq then do
    let (root', pRef, qRef, h1) ← case2 h root tp tq line np ns
    let h2 ← bulletFinish h1 dupP dupQ tp tq pRef qRef line
    .ok (root', dupP, dupQ, h2)
  else do
    let (pRef, qRef, dp, dq, h1) ← case13 fuel h root tp tq line np ns bbTop bbBot
    let h2 ← bulletFinish h1 dp dq tp tq pRef qRef line
    .ok (root, dp, dq, h2)

/-- The insertion loop over all input lines, threading root, heap, duplicate
flags and the id counters (incremented before each insertion, source lines
340-341). -/
def insertLoop (fuel : Nat) (bbTop bbBot : Ref) :
    List Line → Heap → Ref → Bool → Bool → Nat → Nat → Except PyErr (Ref × Heap)
  | [], h, root, _, _, _, _ => .ok (root, h)
  | l :: ls, h, root, dp, dq, np, ns => do
      let (root', dp', dq', h') ← insertLine fuel h root dp dq l (np + 1) (ns + 1) bbTop bbBot
      insertLoop fuel bbTop bbBot ls h' root' dp' dq' (np + 1) (ns + 1)

/-- `construct_trapezoidal_map` (source lines 303-475): allocate the four
bounding-box corner points (refs 0-3), the two bounding segments (refs 4-5,
both named `S0`), the initial trapezoid (ref 6), then insert the lines one by
one.  Returns the root of the search DAG and the final heap. -/
def construct_trapezoidal_map (fuel : Nat) (lines : List Line) (bb : BBox) :
    Except PyErr (Ref × Heap) := do
  let h1 := alloc Heap.empty (.pt true none none none (bb.1.1, bb.2.2) (Tag.P, some 0) 100 0)
  let h2 := alloc h1 (.pt false none none none (bb.2.1, bb.2.2) (Tag.Q, some 0) 100 0)
  let h3 := alloc h2 (.pt true none none none (bb.1.1, bb.1.2) (Tag.P, some 0) 100 0)
  let h4 := alloc h3 (.pt false none none none (bb.2.1, bb.1.2) (Tag.Q, some 0) 100 0)
  let (bbTop, h5) ← segInit h4 0 1 none (Tag.S, some 0)
  let (bbBot, h6) ← segInit h5 2 3 none (Tag.S, some 0)
  let treeRef := h6.fresh
  let h7 := alloc h6 (.trap (some 2) (some 1) bbTop bbBot none none)
  insertLoop fuel bbTop bbBot lines h7 treeRef false false 0 0

/-- The per-line normalization done by `parseInput` (source lines 1025-1028):
order the endpoints by x, swapping when `x1 < x2` fails — a vertical segment
(`x1 = x2`) is kept, in swapped order, not rejected. -/
def normLine (x1 y1 x2 y2 : ℚ) : Line :=
  if x1 < x2 then ((x1, y1), (x2, y2)) else ((x2, y2), (x1, y1))

end TrapMap

namespace TrapMap

/-! ## Naming and adjacency-matrix export -/

/-- `name_and_count_traps` (source lines 725-749): count begin points, end
points and structurally-distinct trapezoids while naming every trapezoid
leaf, reusing the name of the first `==`-equal member of `trap_set`. -/
def name_and_count_traps : Nat → Heap → Option Ref → List Ref → Nat → Nat → Nat →
    Except PyErr ((Nat × Nat × Nat) × List Ref × Heap)
  | 0, _, _, _, _, _, _ => .error .fuel
  | fuel + 1, h, tm, tset, cb, ce, ct =>
    match tm with
    | some r =>
      match h.objs r with
      | some (.pt isB _ l rt _ _ _ _) => do
          let ((lb, le, ct1), ts1, h1) ← name_and_count_traps fuel h l tset cb ce ct
          let ((rb, re, rt'), ts2, h2) ← name_and_count_traps fuel h1 rt ts1 cb ce ct1
          if isB then .ok ((lb + rb + 1, le + re, rt'), ts2, h2)
          else .ok ((lb + rb, le + re + 1, rt'), ts2, h2)
      | some (.seg _ ab be _ _ _ _ _) => do
          let ((lb, le, ct1), ts1, h1) ← name_and_count_traps fuel h ab tset cb ce ct
          let ((rb, re, rt'), ts2, h2) ← name_and_count_traps fuel h1 be ts1 cb ce ct1
          .ok ((lb + rb, le + re, rt'), ts2, h2)
      | some (.trap _ _ _ _ _ _) =>
          match tset.find? (fun e => pyEq h r e) with
          | some e => do
              let enm ← (match h.objs e with
                | some (.trap _ _ _ _ _ (some nm)) => Except.ok nm
                | _ => Except.error PyErr.attr)
              let h' ← setTName h r enm
              .ok ((cb, ce, ct), tset, h')
          | none => do
              let h' ← setTName h r (Tag.T, some (ct + 1))
              .ok ((cb, ce, ct + 1), tset ++ [r], h')
      | none => .error .attr
    | none => .error .attr

/-- The adjacency matrix, unboundedly indexed; entries outside the emitted
`dim × dim` square stay 0. -/
abbrev Matrix := Nat → Nat → Nat

/-- Set entry `(i, j)` to 1. -/
def mset (m : Matrix) (i j : Nat) : Matrix :=
  fun a b => if a = i && b = j then 1 else m a b

/-- The column index of a node, `int(name[1:])` offset by class (source
lines 761-781): begin points first, then end points, then segments, then
trapezoids.  `AttributeError` when the name is missing or non-numeric. -/
def nodeIdx (h : Heap) (r : Ref) (nb ne nl : Nat) : Except PyErr Nat :=
  match h.objs r with
  | some (.pt true _ _ _ _ (_, some k) _ _) => .ok (k - 1)
  | some (.pt false _ _ _ _ (_, some k) _ _) => .ok (k + nb - 1)
  | some (.seg _ _ _ _ _ (_, some k) _ _) => .ok (k + nb + ne - 1)
  | some (.trap _ _ _ _ _ (some (_, some k))) => .ok (k + nb + ne + nl - 1)
  | _ => .error .attr

/-- `populate_adjacency_matrix` (source lines 751-846): for every internal
node, set entry `(child index, node index)` to 1 for both children and
recurse; trapezoid leaves contribute nothing. -/
def populate_adjacency_matrix : Nat → Heap → Ref → Matrix → Nat → Nat → Nat →
    Except PyErr Matrix
  | 0, _, _, _, _, _, _ => .error .fuel
  | fuel + 1, h, r, m, nb, ne, nl =>
    match h.objs r with
    | some (.pt _ _ l rt _ _ _ _) => do
        let base ← nodeIdx h r nb ne nl
        let lr ← getSome l
        let li ← nodeIdx h lr nb ne nl
        let rr ← getSome rt
        let ri ← nodeIdx h rr nb ne nl
        let m1 := mset (mset m li base) ri base
        let m2 ← populate_adjacency_matrix fuel h lr m1 nb ne nl
        populate_adjacency_matrix fuel h rr m2 nb ne nl
    | some (.seg _ ab be _ _ _ _ _) => do
        let base ← nodeIdx h r nb ne nl
        let ar ← getSome ab
        let ai ← nodeIdx h ar nb ne nl
        let br ← getSome be
        let bi ← nodeIdx h br nb ne nl
        let m1 := mset (mset m ai base) bi base
        let m2 ← populate_adjacency_matrix fuel h ar m1 nb ne nl
        populate_adjacency_matrix fuel h br m2 nb ne nl
    | _ => .ok m

/-- The list of column sums of the emitted `dim × dim` matrix (the final
line of `output.txt`, source lines 872-880). -/
def colSums (m : Matrix) (dim : Nat) : List Nat :=
  (List.range dim).map (fun j => ((List.range dim).map (fun i => m i j)).sum)

/-- `create_adjacency_matrix` (source lines 848-882): name and count the
nodes, build the `dim × dim` zero matrix with
`dim = num_begin + num_end + num_traps + num_lines`, populate it, and
compute the column sums.  The file output is modelled by the returned
dimension, matrix and column-sum list. -/
def create_adjacency_matrix (fuel : Nat) (h : Heap) (root : Ref) (numLines : Nat) :
    Except PyErr (Nat × Matrix × List Nat × Heap) := do
  let ((nb, ne, nt), _, h1) ← name_and_count_traps fuel h (some root) [] 0 0 0
  let dim := nb + ne + nt + numLines
  let m ← populate_adjacency_matrix fuel h1 root (fun _ _ => 0) nb ne numLines
  .ok (dim, m, colSums m dim, h1)

end TrapMap

namespace TrapMap

/-! ## Concrete scenarios

`bbStd` is the standard (0,0)-(100,100) bounding rectangle of the spec's
end-to-end scenarios.  `linesOne` inserts a single horizontal segment;
`linesMerge` then inserts a second, longer segment below it that crosses
several trapezoids (exercising the merge path of `blockBullets`);
`linesCross` is the spec's S3 pair whose second segment crosses the first;
`linesCorner` inserts a segment whose left endpoint coincides with the
bounding rectangle's lower-left corner (the initial trapezoid's
`left_point`). -/

/-- The (0,0)-(100,100) bounding rectangle. -/
def bbStd : BBox := ((0, 0), (100, 100))

/-- Heap of a construction result (`Heap.empty` on error). -/
def heapOf (e : Except PyErr (Ref × Heap)) : Heap :=
  match e with
  | .ok (_, h) => h
  | .error _ => Heap.empty

/-- Root of a construction result (`0` on error). -/
def rootOf (e : Except PyErr (Ref × Heap)) : Ref :=
  match e with
  | .ok (r, _) => r
  | .error _ => 0

/-- The error of a construction result, if any. -/
def errOf (e : Except PyErr (Ref × Heap)) : Option PyErr :=
  match e with
  | .ok _ => none
  | .error x => some x

/-- One horizontal segment. -/
def linesOne : List Line := [((30, 40), (70, 40))]

/-- The heap after inserting `linesOne`. -/
def heapOne : Heap := heapOf (construct_trapezoidal_map 50 linesOne bbStd)

/-- A short segment, then a long lower segment crossing several trapezoids. -/
def linesMerge : List Line := [((30, 40), (70, 40)), ((10, 20), (90, 20))]

/-- The heap after inserting `linesMerge`. -/
def heapMerge : Heap := heapOf (construct_trapezoidal_map 50 linesMerge bbStd)

/-- The spec's S3 pair: the second segment crosses the first at (50,50). -/
def linesCross : List Line := [((20, 50), (80, 50)), ((40, 20), (60, 80))]

/-- The heap after inserting both segments of `linesCross`. -/
def heapCross : Heap := heapOf (construct_trapezoidal_map 50 linesCross bbStd)

/-- The heap after inserting only the first segment of `linesCross`. -/
def heapCrossPre : Heap := heapOf (construct_trapezoidal_map 50 [((20, 50), (80, 50))] bbStd)

/-- One segment whose left endpoint is the rectangle's lower-left corner. -/
def linesCorner : List Line := [((0, 0), (50, 50))]

/-- The heap after inserting `linesCorner`. -/
def heapCorner : Heap := heapOf (construct_trapezoidal_map 50 linesCorner bbStd)

/-- The heap of the empty construction (no segments). -/
def heapEmpty : Heap := heapOf (construct_trapezoidal_map 50 [] bbStd)

/-- Three segments whose third insertion locates its left endpoint in a
trapezoid whose parent is an EndPoint node: the four-way parent dispatch of
the insertion (source lines 407-425) fires no branch, so the new segment
node keeps `above = below = None`. -/
def linesFall : List Line := [((20, 50), (80, 50)), ((30, 70), (50, 70)), ((60, 60), (85, 55))]

/-- The heap after inserting `linesFall`. -/
def heapFall : Heap := heapOf (construct_trapezoidal_map 80 linesFall bbStd)

/-- The spec's S5 shared-endpoint pair followed by one more segment: the
second insertion reuses the existing end point for its duplicate left
endpoint, so no begin point named P2 ever exists, and the third insertion
creates begin point P3 whose column index collides with end point Q1's. -/
def linesDup : List Line := [((20, 50), (50, 50)), ((50, 50), (80, 70)), ((10, 10), (20, 15))]

/-- The heap after inserting `linesDup`. -/
def heapDup : Heap := heapOf (construct_trapezoidal_map 80 linesDup bbStd)

/-- The heap after `name_and_count_traps` has named `heapMerge`'s trapezoids. -/
def namedMerge : Heap :=
  match name_and_count_traps 50 heapMerge (some 7) [] 0 0 0 with
  | .ok (_, _, h) => h
  | .error _ => Heap.empty

/-- The `(num_begin, num_end, num_traps)` counts of a map. -/
def countsOf (fuel : Nat) (h : Heap) (root : Ref) : Nat × Nat × Nat :=
  match name_and_count_traps fuel h (some root) [] 0 0 0 with
  | .ok (c, _, _) => c
  | .error _ => (0, 0, 0)

/-- The matrix dimension and column-sum line of the adjacency-matrix export. -/
def adjOf (fuel : Nat) (h : Heap) (root : Ref) (numLines : Nat) : Nat × List Nat :=
  match create_adjacency_matrix fuel h root numLines with
  | .ok (dim, _, cs, _) => (dim, cs)
  | .error _ => (0, [])

/-- A single entry of the exported adjacency matrix (`99` on error). -/
def adjEntry (fuel : Nat) (h : Heap) (root : Ref) (numLines : Nat) (i j : Nat) : Nat :=
  match create_adjacency_matrix fuel h root numLines with
  | .ok (_, m, _, _) => m i j
  | .error _ => 99

end TrapMap

namespace TrapMap

set_option maxRecDepth 4000

/-! ## Concrete evaluation theorems -/

unseal Rat.add Rat.mul Rat.sub Rat.inv in
/-- C9: the empty construction yields the single bounding-rectangle
trapezoid (ref 6) as root; `locate_point` at (50,50) returns it; the
adjacency export is the 1×1 zero matrix with column-sum line `[0]`. -/
theorem C9_empty_map_single_trap :
    rootOf (construct_trapezoidal_map 50 [] bbStd) = 6 ∧
    heapEmpty.objs 6 = some (.trap (some 2) (some 1) 4 5 none none) ∧
    locate_point 50 heapEmpty (50, 50) (some 6) = some 6 ∧
    adjOf 50 heapEmpty 6 0 = (1, [0]) ∧
    adjEntry 50 heapEmpty 6 0 0 0 = 0 := by
  decide

unseal Rat.add Rat.mul Rat.sub Rat.inv in
/-- C1 counterexample, refuting both failure-free assertions of the claim.
(1) After inserting one segment with left endpoint (30,40), querying exactly
(30,40) makes `locate_point` return ref 7 — the `BeginPoint` node itself,
not a trapezoid.  (2) The walk can also return nothing: constructing
`linesFall` succeeds, but its third insertion left the segment node 23 with
`above = below = None` (the EndPoint-parent dispatch fall-through), and the
in-rectangle query (61,56), routed below that segment, returns `none`. -/
theorem C1_locate_returns_point_node :
    locate_point 50 heapOne (30, 40)
      (some (rootOf (construct_trapezoidal_map 50 linesOne bbStd))) = some 7 ∧
    heapOne.objs 7 = some (.pt true none (some 10) (some 8) (30, 40) (Tag.P, some 1) 100 0) ∧
    errOf (construct_trapezoidal_map 80 linesFall bbStd) = none ∧
    rootOf (construct_trapezoidal_map 80 linesFall bbStd) = 7 ∧
    heapFall.objs 23 = some (.seg (some 21) none none 21 22 (Tag.S, some 3) (-1/5) 72) ∧
    locate_point 80 heapFall (61, 56) (some 7) = none := by
  decide

unseal Rat.add Rat.mul Rat.sub Rat.inv in
/-- C2 counterexample: inserting ((0,0),(50,50)) into the fresh map — whose
initial trapezoid has `left_point` ref 2 located at (0,0), coinciding with
the new segment's P — still creates trapezoid A (ref 10) as the left child
of x-node(P): A is not omitted. -/
theorem C2_A_not_omitted :
    rootOf (construct_trapezoidal_map 50 linesCorner bbStd) = 7 ∧
    heapCorner.objs 2 = some (.pt true none none none (0, 0) (Tag.P, some 0) 100 0) ∧
    heapCorner.objs 7 = some (.pt true none (some 10) (some 8) (0, 0) (Tag.P, some 1) 100 0) ∧
    heapCorner.objs 10 = some (.trap (some 2) (some 7) 4 5 (some 7) none) := by
  decide

unseal Rat.add Rat.mul Rat.sub Rat.inv in
/-- C3 counterexample: in `heapMerge` the rewrites of distinct crossed
leaves contain the y-nodes 20 and 35 (both segments named S2) whose below
children are leaves 23 and 37 — distinct nodes (23 ≠ 37) that merely compare
structurally equal (`pyEq`), refuting "the one shared merged leaf (the same
node, not two structurally equal copies)". -/
theorem C3_merge_copies_not_shared :
    heapMerge.objs 20 = some (.seg (some 15) (some 22) (some 23) 14 15 (Tag.S, some 2) 0 20) ∧
    heapMerge.objs 35 = some (.seg (some 9) (some 36) (some 37) 14 15 (Tag.S, some 2) 0 20) ∧
    heapMerge.objs 23 = some (.trap (some 14) (some 15) 20 5 (some 20) none) ∧
    heapMerge.objs 37 = some (.trap (some 14) (some 15) 35 5 (some 35) none) ∧
    pyEq heapMerge 23 37 = true ∧
    (23 : Ref) ≠ 37 := by
  decide

unseal Rat.add Rat.mul Rat.sub Rat.inv in
/-- C3 (amended): merging is realized by structural equality plus shared
naming, not shared node identity: the three structurally equal lower pieces
19, 23, 37 (one per rewritten leaf, each below a distinct S2 y-node) all
receive the same name T3 from `name_and_count_traps`, and the trapezoid
count 7 counts them once. -/
theorem C3_merge_by_name_sharing :
    namedMerge.objs 19 = some (.trap (some 14) (some 15) 16 5 (some 16) (some (Tag.T, some 3))) ∧
    namedMerge.objs 23 = some (.trap (some 14) (some 15) 20 5 (some 20) (some (Tag.T, some 3))) ∧
    namedMerge.objs 37 = some (.trap (some 14) (some 15) 35 5 (some 35) (some (Tag.T, some 3))) ∧
    pyEq heapMerge 19 23 = true ∧
    pyEq heapMerge 19 37 = true ∧
    countsOf 50 heapMerge 7 = (2, 2, 7) := by
  decide

unseal Rat.add Rat.mul Rat.sub Rat.inv in
/-- C6 counterexample: inserting the S3 crossing pair — the second segment
crosses the first at (50,50) strictly between its endpoints — succeeds with
no error, and the first segment's y-node (ref 9) has had both its children
rewired (from leaves 12, 13 to the new nodes 15, 14): insertion neither
refuses nor leaves the map unchanged. -/
theorem C6_crossing_not_refused :
    (construct_trapezoidal_map 50 linesCross bbStd).isOk = true ∧
    heapCrossPre.objs 9 = some (.seg (some 8) (some 12) (some 13) 7 8 (Tag.S, some 1) 0 50) ∧
    heapCross.objs 9 = some (.seg (some 8) (some 15) (some 14) 7 8 (Tag.S, some 1) 0 50) := by
  decide

unseal Rat.add Rat.mul Rat.sub Rat.inv in
/-- C6 (amended): the code performs no crossing detection: the crossing
segment of the S3 pair is integrated into the DAG — its x-node (ref 14) and
y-node (ref 16, named S2, slope 3) are reachable children — and the root is
unchanged. -/
theorem C6_crossing_inserted :
    rootOf (construct_trapezoidal_map 50 linesCross bbStd) = 7 ∧
    heapCross.objs 14 = some (.pt true (some 9) (some 17) (some 16) (40, 20) (Tag.P, some 2) 50 0) ∧
    heapCross.objs 16 = some (.seg (some 14) (some 18) (some 19) 14 15 (Tag.S, some 2) 3 (-100)) := by
  decide

unseal Rat.add Rat.mul Rat.sub Rat.inv in
/-- C7 counterexample: a vertical input segment is NOT rejected by the
parser normalization (it is kept, endpoints swapped), and constructing the
map with it reaches the unguarded division by `Q.x - P.x = 0` in
`Segment.__init__`, raising `ZeroDivisionError`. -/
theorem C7_vertical_not_rejected :
    normLine 5 10 5 20 = ((5, 20), (5, 10)) ∧
    errOf (construct_trapezoidal_map 50 [normLine 5 10 5 20] bbStd) = some .zdiv := by
  decide

unseal Rat.add Rat.mul Rat.sub Rat.inv in
/-- C8 counterexample: in the `linesMerge` map the column of the y-node name
S2 (column 5 = 2 + num_begin + num_end − 1, with counts (2,2,7)) sums to 4,
not 2: three distinct tree segment nodes share the name S2 and write into
one column. -/
theorem C8_segment_column_sum_four :
    countsOf 50 heapMerge 7 = (2, 2, 7) ∧
    heapMerge.objs 16 = some (.seg (some 14) (some 18) (some 19) 14 15 (Tag.S, some 2) 0 20) ∧
    (nodeIdx heapMerge 16 2 2 2).toOption = some 5 ∧
    (adjOf 50 heapMerge 7 2).2.get? 5 = some 4 := by
  decide

unseal Rat.add Rat.mul Rat.sub Rat.inv in
/-- C8 (amended): the exported column sums are computed per node *name*, so
they are 2 for internal-node columns and 0 for leaf columns only in the
absence of naming collisions (the `linesOne` and `linesMerge` exports, where
every point column sums to 2 and every leaf column to 0, with the shared S2
segment column summing to 4).  With a duplicate endpoint (`linesDup`, the
spec's S5 pair plus one segment) the skipped number P2 leaves its column
summing 0, begin point P3 (ref 23) and end point Q1 (ref 8) both index
column 2, which sums to 4, and P1's column sums to only 1 because its two
children collide on one row index. -/
theorem C8_column_sums :
    adjOf 50 heapMerge 7 2 = (13, [2, 2, 2, 2, 2, 4, 0, 0, 0, 0, 0, 0, 0]) ∧
    adjOf 50 heapOne 7 1 = (7, [2, 2, 2, 0, 0, 0, 0]) ∧
    errOf (construct_trapezoidal_map 80 linesDup bbStd) = none ∧
    countsOf 80 heapDup 7 = (2, 3, 9) ∧
    heapDup.objs 23 =
      some (.pt true (some 7) (some 26) (some 24) (10, 10) (Tag.P, some 3) 100 0) ∧
    heapDup.objs 8 =
      some (.pt false (some 7) (some 9) (some 14) (50, 50) (Tag.Q, some 1) 100 50) ∧
    (nodeIdx heapDup 23 2 3 3).toOption = some 2 ∧
    (nodeIdx heapDup 8 2 3 3).toOption = some 2 ∧
    adjOf 80 heapDup 7 3 = (17, [1, 0, 4, 2, 2, 2, 2, 2, 0, 0, 0, 0, 0, 0, 0, 0, 0]) := by
  decide

unseal Rat.add Rat.mul Rat.sub Rat.inv in
/-- C10 counterexample: during the insertion of the second input line
(allocations with refs ≥ 14 = `heapOne.fresh`), the split case of
`blockBullets` builds the throwaway segment ref 28 named `S_`, which does
not compare equal to the segment ref 16 named S2 built during the same
insertion — refuting "every Segment object created during the insertion of
the i-th input line (all named S + i ...) compares equal to every other such
object". -/
theorem C10_underscore_segment :
    heapOne.fresh = 14 ∧
    heapMerge.objs 28 = some (.seg none none none 14 15 (Tag.S, none) 0 20) ∧
    heapMerge.objs 16 = some (.seg (some 14) (some 18) (some 19) 14 15 (Tag.S, some 2) 0 20) ∧
    pyEq heapMerge 28 16 = false := by
  decide

unseal Rat.add Rat.mul Rat.sub Rat.inv in
/-- C5 counterexample: for the integer inputs P = (0,0), Q = (11,15),
pt = (11,15) — the right endpoint itself, so the orientation determinant is
0 — the float computation `m*x + b` of the program (modelled by IEEE-754
double rounding) yields 8444249301319679/2^49 < 15, so `isOn` is `False`
and `isAbove` is `False`: the classification disagrees with the determinant
sign and the float computation is not exact. -/
theorem C5_float_misclassifies :
    orientDet (0, 0) (11, 15) (11, 15) = 0 ∧
    flIsOn (0, 0) (11, 15) (11, 15) = false ∧
    flIsAbove (0, 0) (11, 15) (11, 15) = false ∧
    flGetY (0, 0) (11, 15) 11 < 15 := by
  decide

end TrapMap

namespace TrapMap

/-! ## General theorems about the embedded operations -/

/-- Root component of a `case2` result. -/
def c2root (res : Except PyErr (Ref × Ref × Ref × Heap)) : Ref :=
  match res with
  | .ok (r, _, _, _) => r
  | .error _ => 0

/-- `p` component of a `case2` result. -/
def c2p (res : Except PyErr (Ref × Ref × Ref × Heap)) : Ref :=
  match res with
  | .ok (_, p, _, _) => p
  | .error _ => 0

/-- `q` component of a `case2` result. -/
def c2q (res : Except PyErr (Ref × Ref × Ref × Heap)) : Ref :=
  match res with
  | .ok (_, _, q, _) => q
  | .error _ => 0

/-- Heap component of a `case2` result. -/
def c2heap (res : Except PyErr (Ref × Ref × Ref × Heap)) : Heap :=
  match res with
  | .ok (_, _, _, h) => h
  | .error _ => Heap.empty

theorem pbind_ok {α β : Type} (a : α) (f : α → Except PyErr β) :
    (Except.ok a : Except PyErr α) >>= f = f a := rfl

theorem optRefEq_refl (x : Option Ref) : optRefEq x x = true := by
  cases x <;> simp [optRefEq]

theorem segNameEq_refl (h : Heap) (a : Ref) : segNameEq h a a = true := by
  unfold segNameEq
  rcases ho : h.objs a with _ | o
  · simp [ho]
  · cases o <;> simp [ho]

theorem pyEq_refl (h : Heap) (a : Ref) : pyEq h a a = true := by
  unfold pyEq
  rcases ho : h.objs a with _ | o
  · simp [ho]
  · cases o <;> simp [ho, optRefEq_refl, segNameEq_refl]

/-- C1 (amended): whenever `locate_point` returns a node, that node is either
a trapezoid leaf or a point node whose stored coordinates equal the query
point exactly (the duplicate-endpoint return of source lines 929-932); it
never returns a segment node or a non-coincident point node. -/
theorem C1_locate_result_type (fuel : Nat) (h : Heap) (pt : ℚ × ℚ) (r0 : Option Ref) (r : Ref)
    (hr : locate_point fuel h pt r0 = some r) :
    (∃ lp rp ab be par nm, h.objs r = some (.trap lp rp ab be par nm)) ∨
    (∃ k par l rt nm bu bl, h.objs r = some (.pt k par l rt pt nm bu bl)) := by
  induction fuel generalizing r0 with
  | zero => simp [locate_point] at hr
  | succ n ih =>
    cases r0 with
    | none => simp [locate_point] at hr
    | some c =>
      rw [locate_point] at hr
      split at hr
      · rename_i isB par l rt x y nm bu bl heq
        by_cases h1 : pt.1 = x
        · rw [if_pos h1] at hr
          by_cases h2 : pt.2 = y
          · rw [if_pos h2] at hr
            injection hr with hcr
            subst hcr
            right
            refine ⟨isB, par, l, rt, nm, bu, bl, ?_⟩
            rw [heq, show pt = (x, y) from Prod.ext_iff.mpr ⟨h1, h2⟩]
          · rw [if_neg h2] at hr
            exact ih _ hr
        · rw [if_neg h1] at hr
          split at hr
          · exact ih _ hr
          · exact ih _ hr
      · rename_i par ab be sp sq nm m b heq
        split at hr
        · exact ih _ hr
        · exact ih _ hr
      · rename_i lp rp ab be par nm heq
        injection hr with hcr
        subst hcr
        exact Or.inl ⟨lp, rp, ab, be, par, nm, heq⟩
      · exact Option.noConfusion hr

unseal Rat.add Rat.mul Rat.sub Rat.inv in
/-- C1 witness: the theorem applied to the empty map at query (50,50). -/
theorem C1_locate_result_witness :
    locate_point 50 heapEmpty (50, 50) (some 6) = some 6 ∧
    ((∃ lp rp ab be par nm, heapEmpty.objs 6 = some (.trap lp rp ab be par nm)) ∨
     (∃ k par l rt nm bu bl,
        heapEmpty.objs 6 = some (.pt k par l rt ((50 : ℚ), (50 : ℚ)) nm bu bl))) :=
  ⟨by decide, C1_locate_result_type 50 heapEmpty (50, 50) (some 6) 6 (by decide)⟩

/-- C4 (amended): the tie-break conventions of `locate_point` (source lines
927-945): at a point node whose x equals the query's x, the walk goes to the
left child when the y-coordinates differ, but returns the point node itself
when they also agree; at a segment node the walk goes to the `above` child
when the query's y equals `m*x + b` exactly. -/
theorem C4_tie_break (fuel : Nat) (h : Heap) (pt : ℚ × ℚ) (r : Ref) :
    (∀ k par l rt x y nm bu bl, h.objs r = some (.pt k par l rt (x, y) nm bu bl) → pt.1 = x →
      ((pt.2 ≠ y → locate_point (fuel + 1) h pt (some r) = locate_point fuel h pt l) ∧
       (pt.2 = y → locate_point (fuel + 1) h pt (some r) = some r))) ∧
    (∀ par ab be sp sq nm m b, h.objs r = some (.seg par ab be sp sq nm m b) →
      pt.2 = m * pt.1 + b → locate_point (fuel + 1) h pt (some r) = locate_point fuel h pt ab) := by
  constructor
  · intro k par l rt x y nm bu bl hobj hx
    constructor
    · intro hy
      rw [locate_point]
      simp only [hobj]
      rw [if_pos hx, if_neg hy]
    · intro hy
      rw [locate_point]
      simp only [hobj]
      rw [if_pos hx, if_pos hy]
  · intro par ab be sp sq nm m b hobj hy
    rw [locate_point]
    simp only [hobj]
    rw [if_pos (le_of_eq hy.symm)]

unseal Rat.add Rat.mul Rat.sub Rat.inv in
/-- C4 witness: the three tie-break facts instantiated on the one-segment
map: equal x with different y routes left, full coincidence returns the
point node, and a query exactly on segment S1 routes above. -/
theorem C4_tie_break_witness :
    locate_point 50 heapOne (30, 41) (some 7) = locate_point 49 heapOne (30, 41) (some 10) ∧
    locate_point 50 heapOne (30, 40) (some 7) = some 7 ∧
    locate_point 50 heapOne (50, 40) (some 9) = locate_point 49 heapOne (50, 40) (some 12) := by
  refine ⟨?_, ?_, ?_⟩
  · exact ((C4_tie_break 49 heapOne (30, 41) 7).1 true none (some 10) (some 8) 30 40
      (Tag.P, some 1) 100 0 (by decide) rfl).1 (by norm_num)
  · exact ((C4_tie_break 49 heapOne (30, 40) 7).1 true none (some 10) (some 8) 30 40
      (Tag.P, some 1) 100 0 (by decide) rfl).2 rfl
  · exact (C4_tie_break 49 heapOne (50, 40) 9).2 (some 8) (some 12) (some 13) 7 8
      (Tag.S, some 1) 0 40 (by decide) (by norm_num)

/-- C5 (amended): in exact rational arithmetic, the slope-intercept
comparison of the source (`getY(pt.x)` vs `pt.y`) classifies a point
relative to a left-to-right segment exactly as the sign of the orientation
determinant: `isOn` iff the determinant is 0, `isAbove` (the segment passes
above the point) iff it is negative, and neither iff it is positive. -/
theorem C5_exact_classification (P Q pt : ℚ × ℚ) (hx : P.1 < Q.1) :
    (ratIsOn P Q pt = true ↔ orientDet P Q pt = 0) ∧
    (ratIsAbove P Q pt = true ↔ orientDet P Q pt < 0) ∧
    (ratIsOn P Q pt = false ∧ ratIsAbove P Q pt = false ↔ 0 < orientDet P Q pt) := by
  have hd : (0 : ℚ) < Q.1 - P.1 := sub_pos.mpr hx
  have hd' : Q.1 - P.1 ≠ 0 := ne_of_gt hd
  have key : ratGetY P Q pt.1 - pt.2 = -orientDet P Q pt / (Q.1 - P.1) := by
    field_simp [ratGetY, ratSlope, ratIcept, orientDet]
    ring
  have h1 : (ratGetY P Q pt.1 = pt.2) ↔ orientDet P Q pt = 0 := by
    rw [← sub_eq_zero, key, div_eq_zero_iff, neg_eq_zero]
    simp [hd']
  have h2 : (pt.2 < ratGetY P Q pt.1) ↔ orientDet P Q pt < 0 := by
    rw [← sub_pos, key, div_pos_iff]
    constructor
    · rintro (⟨hn, _⟩ | ⟨_, hneg⟩)
      · linarith [neg_pos.mp hn]
      · linarith
    · intro hlt
      exact Or.inl ⟨neg_pos.mpr hlt, hd⟩
  refine ⟨?_, ?_, ?_⟩
  · simp only [ratIsOn, decide_eq_true_eq]
    exact h1
  · simp only [ratIsAbove, decide_eq_true_eq]
    exact h2
  · simp only [ratIsOn, ratIsAbove, decide_eq_false_iff_not]
    constructor
    · rintro ⟨hon, hab⟩
      have t1 : orientDet P Q pt ≠ 0 := fun hh => hon (h1.mpr hh)
      have t2 : ¬ orientDet P Q pt < 0 := fun hh => hab (h2.mpr hh)
      rcases lt_trichotomy (orientDet P Q pt) 0 with hlt | heq | hgt
      · exact absurd hlt t2
      · exact absurd heq t1
      · exact hgt
    · intro hgt
      constructor
      · intro hon
        have := h1.mp hon
        linarith
      · intro hab
        have := h2.mp hab
        linarith

unseal Rat.add Rat.mul Rat.sub Rat.inv in
/-- C5 witness: the classification equivalences at P = (0,0), Q = (2,2),
pt = (1,1), a point exactly on the segment. -/
theorem C5_exact_classification_witness :
    ratIsOn (0, 0) (2, 2) (1, 1) = true ∧
    ((ratIsOn (0, 0) (2, 2) (1, 1) = true ↔ orientDet (0, 0) (2, 2) (1, 1) = 0) ∧
     (ratIsAbove (0, 0) (2, 2) (1, 1) = true ↔ orientDet (0, 0) (2, 2) (1, 1) < 0) ∧
     (ratIsOn (0, 0) (2, 2) (1, 1) = false ∧ ratIsAbove (0, 0) (2, 2) (1, 1) = false ↔
        0 < orientDet (0, 0) (2, 2) (1, 1))) :=
  ⟨by decide, C5_exact_classification (0, 0) (2, 2) (1, 1) (by norm_num)⟩

/-- C7 (amended): a vertical input segment is not rejected: the parser
normalization keeps it (swapping its endpoints, source lines 1025-1028), and
`Segment.__init__` on two points with equal x reaches the division by
`Q.x - P.x = 0` and raises `ZeroDivisionError`, so the segment is never
inserted. -/
theorem C7_vertical_reaches_division (x y1 y2 : ℚ) (h : Heap) (spr sqr : Ref)
    (par : Option Ref) (nm : NameT) (k1 k2 : Bool) (p1 l1 r1 p2 l2 r2 : Option Ref)
    (n1 n2 : NameT) (b1 c1 b2 c2 : ℚ)
    (h1 : h.objs spr = some (.pt k1 p1 l1 r1 (x, y1) n1 b1 c1))
    (h2 : h.objs sqr = some (.pt k2 p2 l2 r2 (x, y2) n2 b2 c2)) :
    normLine x y1 x y2 = ((x, y2), (x, y1)) ∧
    segInit h spr sqr par nm = .error .zdiv := by
  constructor
  · rw [normLine, if_neg (lt_irrefl x)]
  · rw [segInit]
    simp only [h1, h2]
    rw [if_pos (sub_self x)]

unseal Rat.add Rat.mul Rat.sub Rat.inv in
/-- C7 witness: the theorem applied to the two bounding-box corner points at
x = 0 in the empty map's heap. -/
theorem C7_vertical_witness :
    normLine 0 100 0 0 = ((0, 0), (0, 100)) ∧
    segInit heapEmpty 0 2 none (Tag.S, some 3) = .error .zdiv :=
  C7_vertical_reaches_division 0 100 0 heapEmpty 0 2 none (Tag.S, some 3) true true
    none none none none none none (Tag.P, some 0) (Tag.P, some 0) 100 0 100 0
    (by decide) (by decide)

/-- C10 (amended): `Segment.__eq__` (source lines 170-183) compares names
only: a segment reference is `==`-equal to another reference exactly when
the other reference holds a segment object bearing the same name, with all
other fields (endpoints included) unconstrained; a segment never compares
equal to a point, trapezoid, or missing object. -/
theorem C10_segment_eq_by_name (h : Heap) (a b : Ref) (pa aa ba : Option Ref)
    (spa sqa : Ref) (na : NameT) (ma bba : ℚ)
    (ha : h.objs a = some (.seg pa aa ba spa sqa na ma bba)) :
    pyEq h a b = true ↔
      ∃ pb ab bb spb sqb mb bbb, h.objs b = some (.seg pb ab bb spb sqb na mb bbb) := by
  unfold pyEq
  rw [ha]
  cases hb : h.objs b with
  | none =>
      constructor
      · intro hab
        have hab' : a = b := by simpa using hab
        rw [← hab', ha] at hb
        cases hb
      · rintro ⟨_, _, _, _, _, _, _, hc⟩
        cases hc
  | some o =>
    cases o with
    | pt k2 p2 l2 r2 loc2 nm2 bu2 bl2 =>
        constructor
        · intro hab
          have hab' : a = b := by simpa using hab
          rw [← hab', ha] at hb
          cases hb
        · rintro ⟨_, _, _, _, _, _, _, hc⟩
          cases hc
    | seg pb ab bb spb sqb nb mb bbb =>
        constructor
        · intro hab
          have hnm : na = nb := by simpa using hab
          subst hnm
          exact ⟨pb, ab, bb, spb, sqb, mb, bbb, rfl⟩
        · rintro ⟨pb', ab', bb', spb', sqb', mb', bbb', hc⟩
          injection hc with hc2
          injection hc2
          simp_all
    | trap lp2 rp2 ab2 be2 par2 nm2 =>
        constructor
        · intro hab
          have hab' : a = b := by simpa using hab
          rw [← hab', ha] at hb
          cases hb
        · rintro ⟨_, _, _, _, _, _, _, hc⟩
          cases hc

unseal Rat.add Rat.mul Rat.sub Rat.inv in
/-- C10 witness: two distinct S2 segment objects of the merge scenario
compare equal by name alone, through the theorem's backward direction. -/
theorem C10_segment_eq_witness :
    pyEq heapMerge 16 20 = true :=
  (C10_segment_eq_by_name heapMerge 16 20 (some 14) (some 18) (some 19) 14 15 (Tag.S, some 2)
    0 20 (by decide)).mpr ⟨some 15, some 22, some 23, 14, 15, 0, 20, by decide⟩

end TrapMap

namespace TrapMap

set_option maxRecDepth 4000 in
set_option maxHeartbeats 3200000 in
/-- C2 (amended): in the single-trapezoid case (k = 1), whether or not the
old trapezoid has a parent, `case2` always builds the full four-trapezoid
subgraph: fresh point node p with left child A and right child q, point
node q with left child s and right child D, segment node s with above
child B and below child C, and the four new trapezoid leaves A, B, C, D
with the stated parents and inherited neighbours; the A and D leaves are
never omitted.  When the old trapezoid was the root the new root is p,
otherwise the old parent's matching child pointer is redirected to p. -/
theorem C2_case2_subgraph
    (h : Heap) (root tpr tqr : Ref) (line : Line) (np ns : Nat)
    (tlp trp tpar : Option Ref) (tab tbe : Ref) (tnm : Option NameT)
    (tqlp tqrp : Option Ref) (tqab tqbe : Ref) (tqpar : Option Ref) (tqnm : Option NameT)
    (htp : h.objs tpr = some (.trap tlp trp tab tbe tpar tnm))
    (htq : h.objs tqr = some (.trap tqlp tqrp tqab tqbe tqpar tqnm))
    (hx : line.2.1 - line.1.1 ≠ 0)
    (hwf : ∀ r, h.fresh ≤ r → h.objs r = none)
    (hpar : tpar = none ∨
      ∃ pr kk pp prt ploc pnm pbu pbl, tpar = some pr ∧
        h.objs pr = some (.pt kk pp (some tpr) prt ploc pnm pbu pbl)) :
    (case2 h root (some tpr) (some tqr) line np ns).isOk = true ∧
    c2p (case2 h root (some tpr) (some tqr) line np ns) = h.fresh ∧
    c2q (case2 h root (some tpr) (some tqr) line np ns) = h.fresh + 1 ∧
    (c2heap (case2 h root (some tpr) (some tqr) line np ns)).objs h.fresh =
      some (.pt true tpar (some (h.fresh + 3)) (some (h.fresh + 1)) line.1 (Tag.P, some np) 100 0) ∧
    (c2heap (case2 h root (some tpr) (some tqr) line np ns)).objs (h.fresh + 1) =
      some (.pt false (some h.fresh) (some (h.fresh + 2)) (some (h.fresh + 4)) line.2
        (Tag.Q, some np) 100 0) ∧
    (c2heap (case2 h root (some tpr) (some tqr) line np ns)).objs (h.fresh + 2) =
      some (.seg (some (h.fresh + 1)) (some (h.fresh + 5)) (some (h.fresh + 6)) h.fresh
        (h.fresh + 1) (Tag.S, some ns) ((line.2.2 - line.1.2) / (line.2.1 - line.1.1))
        (line.1.2 - line.1.1 * ((line.2.2 - line.1.2) / (line.2.1 - line.1.1)))) ∧
    (c2heap (case2 h root (some tpr) (some tqr) line np ns)).objs (h.fresh + 3) =
      some (.trap tlp (some h.fresh) tab tbe (some h.fresh) none) ∧
    (c2heap (case2 h root (some tpr) (some tqr) line np ns)).objs (h.fresh + 4) =
      some (.trap (some (h.fresh + 1)) tqrp tab tbe (some (h.fresh + 1)) none) ∧
    (c2heap (case2 h root (some tpr) (some tqr) line np ns)).objs (h.fresh + 5) =
      some (.trap (some h.fresh) (some (h.fresh + 1)) tab (h.fresh + 2) (some (h.fresh + 2)) none) ∧
    (c2heap (case2 h root (some tpr) (some tqr) line np ns)).objs (h.fresh + 6) =
      some (.trap (some h.fresh) (some (h.fresh + 1)) (h.fresh + 2) tbe (some (h.fresh + 2)) none) ∧
    (tpar = none → c2root (case2 h root (some tpr) (some tqr) line np ns) = h.fresh) ∧
    (∀ pr, tpar = some pr →
      c2root (case2 h root (some tpr) (some tqr) line np ns) = root ∧
      ∀ kk pp prt ploc pnm pbu pbl,
        h.objs pr = some (.pt kk pp (some tpr) prt ploc pnm pbu pbl) →
        (c2heap (case2 h root (some tpr) (some tqr) line np ns)).objs pr =
          some (.pt kk pp (some h.fresh) prt ploc pnm pbu pbl)) := by
  have htprlt : tpr < h.fresh := by
    by_contra hc
    push_neg at hc
    rw [hwf tpr hc] at htp
    cases htp
  have htqrlt : tqr < h.fresh := by
    by_contra hc
    push_neg at hc
    rw [hwf tqr hc] at htq
    cases htq
  have hbq0 : tqr ≠ h.fresh := Nat.ne_of_lt htqrlt
  have haq : ∀ k, tqr ≠ h.fresh + k :=
    fun k => Nat.ne_of_lt (Nat.lt_of_lt_of_le htqrlt (Nat.le_add_right _ _))
  have hbq0s : h.fresh ≠ tqr := hbq0.symm
  have haqs : ∀ k, h.fresh + k ≠ tqr := fun k => (haq k).symm
  obtain ⟨⟨px, py⟩, ⟨qx, qy⟩⟩ := line
  simp only at hx
  rcases hpar with hnone | ⟨pr, kk, pp, prt, ploc, pnm, pbu, pbl, hsome, hprobj⟩
  · subst hnone
    have hres : case2 h root (some tpr) (some tqr) ((px, py), (qx, qy)) np ns =
        case2 h root (some tpr) (some tqr) ((px, py), (qx, qy)) np ns := rfl
    conv at hres =>
      rhs
      simp [case2, segInit, setPtLeft, setPtRight, setSegAbove, setSegBelow, trapFields,
        pbind_ok, alloc, setObj, Function.update_apply, htp, htq, hx, hbq0, haq, hbq0s, haqs, add_assoc]
    refine ⟨?_, ?_, ?_, ?_, ?_, ?_, ?_, ?_, ?_, ?_, fun _ => ?_,
      fun pr habs => Option.noConfusion habs⟩
    all_goals rw [hres]
    all_goals first
      | rfl
      | simp [c2root, c2p, c2q, c2heap, Except.isOk, Function.update_apply, hbq0, haq, hbq0s, haqs, add_assoc]
  · subst hsome
    have hprlt : pr < h.fresh := by
      by_contra hc
      push_neg at hc
      rw [hwf pr hc] at hprobj
      cases hprobj
    have hbp0 : pr ≠ h.fresh := Nat.ne_of_lt hprlt
    have hap : ∀ k, pr ≠ h.fresh + k :=
      fun k => Nat.ne_of_lt (Nat.lt_of_lt_of_le hprlt (Nat.le_add_right _ _))
    have hbp0s : h.fresh ≠ pr := hbp0.symm
    have haps : ∀ k, h.fresh + k ≠ pr := fun k => (hap k).symm
    have hres : case2 h root (some tpr) (some tqr) ((px, py), (qx, qy)) np ns =
        case2 h root (some tpr) (some tqr) ((px, py), (qx, qy)) np ns := rfl
    conv at hres =>
      rhs
      simp [case2, segInit, setPtLeft, setPtRight, setSegAbove, setSegBelow, trapFields,
        pbind_ok, alloc, setObj, Function.update_apply, replaceChild, childEq, pyEq_refl,
        htp, htq, hx, hbq0, haq, hbq0s, haqs, hbp0, hap, hbp0s, haps, hprobj, add_assoc]
    refine ⟨?_, ?_, ?_, ?_, ?_, ?_, ?_, ?_, ?_, ?_, fun habs => Option.noConfusion habs,
      fun pr' hsome' => ?par⟩
    case par =>
      obtain rfl : pr = pr' := Option.some.inj hsome'
      refine ⟨?_, fun kk' pp' prt' ploc' pnm' pbu' pbl' hprobj' => ?_⟩
      · rw [hres]
        rfl
      · have heq : Obj.pt kk pp (some tpr) prt ploc pnm pbu pbl =
            Obj.pt kk' pp' (some tpr) prt' ploc' pnm' pbu' pbl' := by
          have := hprobj.symm.trans hprobj'
          exact Option.some.inj this
        injection heq with e1 e2 e3 e4 e5 e6 e7 e8
        subst e1; subst e2; subst e4; subst e5; subst e6; subst e7; subst e8
        rw [hres]
        simp [c2root, c2p, c2q, c2heap, Except.isOk, Function.update_apply, hbq0, haq, hbq0s, haqs,
          hbp0, hap, hbp0s, haps, add_assoc]
    all_goals rw [hres]
    all_goals first
      | rfl
      | simp [c2root, c2p, c2q, c2heap, Except.isOk, Function.update_apply, hbq0, haq, hbq0s, haqs,
          hbp0, hap, hbp0s, haps, add_assoc]

/-- One-object heap used to instantiate the k = 1 subgraph theorem. -/
def c2witHeap : Heap :=
  ⟨fun r => if r = 0 then some (.trap none none 4 5 none none) else none, 1⟩

/-- C2 witness: the subgraph theorem applied at a concrete one-trapezoid
heap with segment ((0,0),(1,1)). -/
theorem C2_case2_subgraph_witness :
    (case2 c2witHeap 9 (some 0) (some 0) ((0, 0), (1, 1)) 1 1).isOk = true ∧
    c2p (case2 c2witHeap 9 (some 0) (some 0) ((0, 0), (1, 1)) 1 1) = c2witHeap.fresh ∧
    c2q (case2 c2witHeap 9 (some 0) (some 0) ((0, 0), (1, 1)) 1 1) = c2witHeap.fresh + 1 ∧
    (c2heap (case2 c2witHeap 9 (some 0) (some 0) ((0, 0), (1, 1)) 1 1)).objs
        (c2witHeap.fresh + 3) =
      some (.trap none (some c2witHeap.fresh) 4 5 (some c2witHeap.fresh) none) ∧
    c2root (case2 c2witHeap 9 (some 0) (some 0) ((0, 0), (1, 1)) 1 1) = c2witHeap.fresh := by
  have H := C2_case2_subgraph c2witHeap 9 0 0 ((0, 0), (1, 1)) 1 1 none none none 4 5 none
    none none 4 5 none none rfl rfl (by norm_num)
    (fun r hr => by
      have hne : r ≠ 0 := by
        intro h0
        subst h0
        exact absurd hr (by decide)
      show (if r = 0 then some (Obj.trap none none 4 5 none none) else none) = none
      rw [if_neg hne])
    (Or.inl rfl)
  exact ⟨H.1, H.2.1, H.2.2.1, H.2.2.2.2.2.2.1, H.2.2.2.2.2.2.2.2.2.2.1 rfl⟩

end TrapMap

namespace TrapMap

unseal Rat.add Rat.mul Rat.sub Rat.inv in
/-- C4 counterexample: in the one-segment map, the query (30,40) coincides
exactly with the point stored at x-node 7; the walk does not route to that
node's left child (the trapezoid leaf 10, where it would terminate with
`some 10`) but instead returns the point node 7 itself. -/
theorem C4_coincident_returns_node :
    locate_point 50 heapOne (30, 40) (some 7) = some 7 ∧
    locate_point 49 heapOne (30, 40) (some 10) = some 10 ∧
    (7 : Ref) ≠ 10 ∧
    heapOne.objs 7 =
      some (.pt true none (some 10) (some 8) (30, 40) (Tag.P, some 1) 100 0) := by
  decide

end TrapMap
